import Mathlib

/-!
Verification of the core numeric pipeline of the voice-orb visualizer.

The development shallowly embeds the adaptive audio pipeline
(`AudioPipeline` in the audio-pipeline source file: calibration,
baseline subtraction, adaptive gain), the fade-multiplier update of
`VoiceOrb.draw`, and the `ForceSystem` of `forces.ts`.

Modelling conventions:
- JavaScript numbers are embedded as exact rationals (`ℚ`) for the
  audio pipeline and fade logic, whose source code uses only field
  operations, `min`/`max`, sorting and indexing; the force system uses
  `ℝ` because its source code calls `Math.sin` and uses `Math.PI`.
- `Math.random()` draws are passed in as explicit arguments in the
  half-open interval `[0,1)`.
- `performance.now()` readings are passed in as explicit `now`
  arguments.
- Mutation of `this` becomes explicit state passing: each method
  returns the new state together with its return value.
-/

namespace VoiceOrbSpec

/-- State of `AudioPipeline` (audio-pipeline source file): the fields
read or written by `startCalibration`, `processCalibration`,
`processVolumeAdaptively` and `getVolume`. -/
structure AudioState where
  isCalibrating : Bool
  calibrationSamples : List ℚ
  calibrationStartTime : ℚ
  baselineNoise : ℚ
  dynamicSensitivityThreshold : ℚ
  dynamicLoudThreshold : ℚ
  dynamicVeryLoudThreshold : ℚ
  adaptiveGain : ℚ
  volumeHistory : List ℚ

/-- The field initializers of `AudioPipeline`: `isCalibrating = false`,
empty sample and history buffers, `baselineNoise = 0.02`,
thresholds `0.08 / 0.4 / 0.7`, `adaptiveGain = 1.0`. -/
def initialState : AudioState :=
  { isCalibrating := false
    calibrationSamples := []
    calibrationStartTime := 0
    baselineNoise := 0.02
    dynamicSensitivityThreshold := 0.08
    dynamicLoudThreshold := 0.4
    dynamicVeryLoudThreshold := 0.7
    adaptiveGain := 1.0
    volumeHistory := [] }

/-- `CALIBRATION_DURATION = 1000` (milliseconds). -/
def CALIBRATION_DURATION : ℚ := 1000

/-- `VOLUME_HISTORY_SIZE = 100`. -/
def VOLUME_HISTORY_SIZE : ℕ := 100

/-- `AudioPipeline.startCalibration`: sets `isCalibrating`, clears the
sample window and records the start timestamp. -/
def startCalibration (s : AudioState) (now : ℚ) : AudioState :=
  { s with isCalibrating := true, calibrationSamples := [], calibrationStartTime := now }

/-- `AudioPipeline.processCalibration(volume)`: returns `false`
immediately when not calibrating; otherwise pushes the sample, and once
the elapsed wall-clock time reaches `CALIBRATION_DURATION` sorts the
samples, takes the floor-indexed median and 90th percentile, derives
`baselineNoise = max(0.01, median)`, the three thresholds, and
`adaptiveGain = noiseRange > 0.05 ? 0.8/noiseRange : 2.0` clamped to
`[0.5, 4.0]`, clears `isCalibrating` and returns `true`.
JavaScript `arr[i]` at an in-range index is modelled by `List.getD i 0`;
`Math.floor(n/2)` and `Math.floor(n*0.9)` are the natural-number
divisions `n / 2` and `9*n / 10`. -/
def processCalibration (s : AudioState) (volume now : ℚ) : AudioState × Bool :=
  if s.isCalibrating = false then (s, false)
  else
    let samples := s.calibrationSamples ++ [volume]
    let elapsed := now - s.calibrationStartTime
    if CALIBRATION_DURATION ≤ elapsed then
      let sorted := samples.mergeSort (fun a b => decide (a ≤ b))
      let median := sorted.getD (sorted.length / 2) 0
      let p90 := sorted.getD (9 * sorted.length / 10) 0
      let baseline := max 0.01 median
      let noiseRange := p90 - baseline
      let rawGain : ℚ := if 0.05 < noiseRange then 0.8 / noiseRange else 2.0
      let gain := max 0.5 (min rawGain 4.0)
      ({ s with
          isCalibrating := false
          calibrationSamples := sorted
          baselineNoise := baseline
          dynamicSensitivityThreshold := baseline + 0.03
          dynamicLoudThreshold := baseline + 0.15
          dynamicVeryLoudThreshold := baseline + 0.35
          adaptiveGain := gain }, true)
    else ({ s with calibrationSamples := samples }, false)

/-- `AudioPipeline.processVolumeAdaptively(rawVolume)`: pushes the raw
volume into `volumeHistory` (evicting the oldest element beyond
capacity 100), subtracts `baselineNoise` flooring at 0, multiplies by
`adaptiveGain`, then — when the history holds at least 50 entries and
calibration is inactive — nudges the gain toward `0.3 / mean(last 50)`
by a factor `0.001` provided that mean exceeds `0.05`, re-clamping the
gain to `[0.5, 4.0]`; returns `min(adjustedVolume, 1.0)`. -/
def processVolumeAdaptively (s : AudioState) (rawVolume : ℚ) : AudioState × ℚ :=
  let pushed := s.volumeHistory ++ [rawVolume]
  let history := if VOLUME_HISTORY_SIZE < pushed.length then pushed.tail else pushed
  let adjustedVolume := max 0 (rawVolume - s.baselineNoise) * s.adaptiveGain
  let gain :=
    if 50 ≤ history.length ∧ s.isCalibrating = false then
      let recentVolumes := history.drop (history.length - 50)
      let avgRecent := recentVolumes.sum / (recentVolumes.length : ℚ)
      if 0.05 < avgRecent then
        let gainAdjustment := 0.3 / avgRecent
        max 0.5 (min (s.adaptiveGain + (gainAdjustment - s.adaptiveGain) * 0.001) 4.0)
      else s.adaptiveGain
    else s.adaptiveGain
  ({ s with volumeHistory := history, adaptiveGain := gain }, min adjustedVolume 1.0)

/-- The microphone-mode path of `AudioPipeline.getVolume`: when
calibrating, the raw sample of the tick is routed to `processCalibration`;
a tick that does not complete calibration returns 0, while the
completing tick (and every later tick) routes the same raw sample
through `processVolumeAdaptively`. -/
def getVolumeMic (s : AudioState) (rawVolume now : ℚ) : AudioState × ℚ :=
  if s.isCalibrating = true then
    if (processCalibration s rawVolume now).2 = true then
      processVolumeAdaptively (processCalibration s rawVolume now).1 rawVolume
    else ((processCalibration s rawVolume now).1, 0)
  else processVolumeAdaptively s rawVolume

/-- One tick of microphone-mode input: the raw volume computed from the
analyser data together with the `performance.now()` reading. -/
structure TickInput where
  rawVolume : ℚ
  now : ℚ

/-- Folding `getVolumeMic` over a sequence of tick inputs. -/
def runMicTicks (s : AudioState) (inputs : List TickInput) : AudioState :=
  inputs.foldl (fun s i => (getVolumeMic s i.rawVolume i.now).1) s

/-- The gain invariant of the spec: `adaptiveGain ∈ [0.5, 4.0]`. -/
def GainInv (s : AudioState) : Prop := 0.5 ≤ s.adaptiveGain ∧ s.adaptiveGain ≤ 4.0

/-- `clamp` from `utils.ts`: `Math.min(Math.max(value, min), max)`. -/
def clamp (value lo hi : ℚ) : ℚ := min (max value lo) hi

/-- The fade-multiplier update of `VoiceOrb.draw`: on a tick where the
smoothed volume dropped below the level of the previous tick the multiplier
is scaled by `0.96`, otherwise it moves toward 1 by a factor `0.15`;
the result is clamped to `[0, 1]`. -/
def fadeStep (prevLevel currLevel fm : ℚ) : ℚ :=
  clamp (if currLevel < prevLevel then fm * 0.96 else fm + (1 - fm) * 0.15) 0 1

/-- Iterating `fadeStep` over a run of smoothed-volume levels, threading
`previousVolumeLevel` exactly as `VoiceOrb.draw` does. -/
def fadeRun (fm prevLevel : ℚ) : List ℚ → ℚ
  | [] => fm
  | v :: vs => fadeRun (fadeStep prevLevel v fm) v vs

/-- `InternalForce` from `types.ts`, the element type of the `forces`
array of `ForceSystem` in `forces.ts`. The force system calls
`Math.sin` and uses `Math.PI`, so its numbers are embedded as `ℝ`. -/
structure Force where
  angle : ℝ
  strength : ℝ
  life : ℝ
  decay : ℝ
  speed : ℝ
  distance : ℝ
  maxDistance : ℝ

namespace ForceSystem

/-- `ForceSystem.update(smoothedVolume, dynamicSensitivityThreshold)`
from `forces.ts`, with the `Math.random()` draws `r1` (spawn test),
`r2` (angle), `r3` (decay), `r4` (speed) and the current
`fadeMultiplier` passed explicitly. It first drops the forces whose
life is not positive, then — when the volume exceeds the threshold and
`r1 < creationRate` — appends one new force, and finally applies the
decay, travel-clamping and rotation step to every retained force. -/
noncomputable def update (smoothedVolume dynamicSensitivityThreshold fadeMultiplier r1 r2 r3 r4 : ℝ)
    (forces : List Force) : List Force :=
  let alive := forces.filter fun force => decide (0 < force.life)
  let withNew :=
    if dynamicSensitivityThreshold < smoothedVolume ∧
        r1 < (smoothedVolume - dynamicSensitivityThreshold) * 0.5 then
      alive ++ [{ angle := r2 * (Real.pi * 2)
                  strength := 10 + (smoothedVolume - dynamicSensitivityThreshold) * 50
                  life := 1.0
                  decay := 0.008 + r3 * 0.012
                  speed := 0.3 + r4 * 1.0
                  distance := 0
                  maxDistance := 20 + (smoothedVolume - dynamicSensitivityThreshold) * 60 }]
    else alive
  withNew.map fun force =>
    { force with
        life := force.life - force.decay *
          ((if smoothedVolume < dynamicSensitivityThreshold then 2.5 else 1) +
            (1 - fadeMultiplier) * 2)
        distance := min (force.distance + force.speed) force.maxDistance
        angle := force.angle + 0.005 }

/-- The contribution of one force inside the `forEach` of
`ForceSystem.getInfluenceAt(angle)` in `forces.ts`: the angular
distance wrapped at `π`, a linear angular falloff floored at 0, the
product `strength * life * falloff`, and the
`sin(distance / maxDistance * π)` distance term. -/
noncomputable def influenceTerm (angle : ℝ) (force : Force) : ℝ :=
  let angleDiffRaw := |angle - force.angle|
  let angleDiff := if Real.pi < angleDiffRaw then Real.pi * 2 - angleDiffRaw else angleDiffRaw
  let angularFalloff := max 0 (1 - angleDiff / (Real.pi * 0.4))
  let forceAmount := force.strength * force.life * angularFalloff
  let distanceEffect := Real.sin (force.distance / force.maxDistance * Real.pi)
  forceAmount * distanceEffect

/-- `ForceSystem.getInfluenceAt(angle)` from `forces.ts`:
`totalInfluence` starts at 0 and accumulates the contribution of every
force. -/
noncomputable def getInfluenceAt (forces : List Force) (angle : ℝ) : ℝ :=
  (forces.map (influenceTerm angle)).sum

/-- Force collections reachable by the program: starting from the empty
array (initialization, or `ForceSystem.clear`), any number of `update`
calls whose `fadeMultiplier` argument lies in `[0, 1]` (it is clamped
there by `VoiceOrb.draw` before `setFadeMultiplier`) and whose random
draws lie in `[0, 1)` (the range of `Math.random()`). -/
inductive Reachable : List Force → Prop
  | nil : Reachable []
  | step (smoothedVolume dynamicSensitivityThreshold fadeMultiplier r1 r2 r3 r4 : ℝ)
      {forces : List Force} :
      Reachable forces →
      0 ≤ fadeMultiplier → fadeMultiplier ≤ 1 →
      0 ≤ r1 → r1 < 1 → 0 ≤ r2 → r2 < 1 → 0 ≤ r3 → r3 < 1 → 0 ≤ r4 → r4 < 1 →
      Reachable (update smoothedVolume dynamicSensitivityThreshold fadeMultiplier r1 r2 r3 r4 forces)

/-- The structural facts about a stored force that the influence claims
rest on: nonnegative strength, travel distance kept inside
`[0, maxDistance]` with positive `maxDistance`, positive decay,
nonnegative speed, and life never above 1. -/
def ForceOk (force : Force) : Prop :=
  0 ≤ force.strength ∧ 0 ≤ force.distance ∧ force.distance ≤ force.maxDistance ∧
    0 < force.maxDistance ∧ 0 < force.decay ∧ 0 ≤ force.speed ∧ force.life ≤ 1

end ForceSystem

/-- A single `update` call that spawns one force: volume 1 against
threshold 0 with `fadeMultiplier = 0` and draws `0.25, 0.5, 5/6, 0.5`,
giving a force with strength 60, decay 0.018, speed 0.8 and
maxDistance 80. -/
noncomputable def spawnTick (forces : List Force) : List Force :=
  ForceSystem.update 1 0 0 0.25 0.5 (5/6) 0.5 forces

/-- A single `update` call on a quiet tick: volume 0 below threshold 1
with `fadeMultiplier = 0`, so no spawn and every retained force decays
by `decay * (2.5 + 2)`. -/
noncomputable def decayTick (forces : List Force) : List Force :=
  ForceSystem.update 0 1 0 0.5 0.5 0.5 0.5 forces

/-- A single `update` call that spawns one force whose angle, after the
rotation step of the same call, already exceeds `2π`: the angle draw
`r2 = 0.9999` places the spawn angle at `0.9999 * 2π` and the rotation
adds `0.005 > 0.0002π`. -/
noncomputable def wrapTick (forces : List Force) : List Force :=
  ForceSystem.update 1 0 1 0.25 0.9999 0.5 0.5 forces

/-- Calibration state holding `k` identical samples of value `v`,
started at time 0. -/
def calibReplicateState (v : ℚ) (k : ℕ) : AudioState :=
  { initialState with isCalibrating := true, calibrationSamples := List.replicate k v }

/-- Calibration state holding 900 samples of 0.02 and 99 samples of
0.5, started at time 0; observing one more 0.5 completes the window
with the sample multiset of the end-to-end scenario. -/
def calibMixState : AudioState :=
  { initialState with
      isCalibrating := true
      calibrationSamples := List.replicate 900 0.02 ++ List.replicate 99 0.5 }

/-- Calibration state holding ten samples of 0, started at time 0: a
quiet calibration window about to observe a loud final sample. -/
def calibZeroState : AudioState :=
  { initialState with isCalibrating := true, calibrationSamples := List.replicate 10 0 }

end VoiceOrbSpec

namespace VoiceOrbSpec

lemma processVolumeAdaptively_snd (s : AudioState) (rawVolume : ℚ) :
    (processVolumeAdaptively s rawVolume).2 =
      min (max 0 (rawVolume - s.baselineNoise) * s.adaptiveGain) 1.0 := rfl

/-- Claim C1: for every raw volume in `[0,1]` passed to
`processVolumeAdaptively`, and every state with nonnegative baseline
and gain in `[0.5, 4.0]`, the returned adjusted volume lies in
`[0, 1]`. -/
theorem claim_C1_adaptive_output_in_unit (s : AudioState) (rawVolume : ℚ)
    (h0 : 0 ≤ rawVolume) (h1 : rawVolume ≤ 1)
    (hb : 0 ≤ s.baselineNoise) (hg1 : 0.5 ≤ s.adaptiveGain) (hg2 : s.adaptiveGain ≤ 4.0) :
    0 ≤ (processVolumeAdaptively s rawVolume).2 ∧ (processVolumeAdaptively s rawVolume).2 ≤ 1 := by
  rw [processVolumeAdaptively_snd]
  have hmax : (0:ℚ) ≤ max 0 (rawVolume - s.baselineNoise) := le_max_left 0 _
  have hprod : (0:ℚ) ≤ max 0 (rawVolume - s.baselineNoise) * s.adaptiveGain :=
    mul_nonneg hmax (by linarith)
  exact ⟨le_min hprod (by norm_num), le_trans (min_le_right _ _) (by norm_num)⟩

/-- Witness for claim C1 at the default state and raw volume 0.5. -/
theorem claim_C1_witness :
    (0 : ℚ) ≤ 0.5 ∧ (0.5 : ℚ) ≤ 1 ∧ (0 : ℚ) ≤ initialState.baselineNoise ∧
      (0.5 : ℚ) ≤ initialState.adaptiveGain ∧ initialState.adaptiveGain ≤ 4.0 ∧
      0 ≤ (processVolumeAdaptively initialState 0.5).2 ∧
      (processVolumeAdaptively initialState 0.5).2 ≤ 1 := by
  refine ⟨by norm_num, by norm_num, by norm_num [initialState], by norm_num [initialState],
    by norm_num [initialState], ?_, ?_⟩
  · exact (claim_C1_adaptive_output_in_unit initialState 0.5 (by norm_num) (by norm_num)
      (by norm_num [initialState]) (by norm_num [initialState]) (by norm_num [initialState])).1
  · exact (claim_C1_adaptive_output_in_unit initialState 0.5 (by norm_num) (by norm_num)
      (by norm_num [initialState]) (by norm_num [initialState]) (by norm_num [initialState])).2

lemma gainInv_clamp (x : ℚ) : 0.5 ≤ max 0.5 (min x 4.0) ∧ max 0.5 (min x 4.0) ≤ 4.0 :=
  ⟨le_max_left _ _, max_le (by norm_num) (min_le_right _ _)⟩

lemma gainInv_processCalibration (s : AudioState) (volume now : ℚ) (h : GainInv s) :
    GainInv (processCalibration s volume now).1 := by
  unfold GainInv at *
  simp only [processCalibration]
  split_ifs <;>
    first
      | exact h
      | exact gainInv_clamp _

lemma gainInv_processVolumeAdaptively (s : AudioState) (rawVolume : ℚ) (h : GainInv s) :
    GainInv (processVolumeAdaptively s rawVolume).1 := by
  unfold GainInv at *
  simp only [processVolumeAdaptively]
  split_ifs <;>
    first
      | exact h
      | exact gainInv_clamp _

lemma gainInv_getVolumeMic (s : AudioState) (rawVolume now : ℚ) (h : GainInv s) :
    GainInv (getVolumeMic s rawVolume now).1 := by
  unfold getVolumeMic
  by_cases h1 : s.isCalibrating = true
  · rw [if_pos h1]
    by_cases h2 : (processCalibration s rawVolume now).2 = true
    · rw [if_pos h2]
      exact gainInv_processVolumeAdaptively _ _ (gainInv_processCalibration _ _ _ h)
    · rw [if_neg h2]
      exact gainInv_processCalibration _ _ _ h
  · rw [if_neg h1]
    exact gainInv_processVolumeAdaptively _ _ h

lemma gainInv_runMicTicks (inputs : List TickInput) (s : AudioState) (h : GainInv s) :
    GainInv (runMicTicks s inputs) := by
  induction inputs generalizing s with
  | nil => exact h
  | cons i rest ih => exact ih _ (gainInv_getVolumeMic _ _ _ h)

/-- Claim C2: starting from the default gain 1.0 — with or without a
calibration window in progress — the adaptive gain stays in
`[0.5, 4.0]` after any sequence of microphone ticks; since the
sequence of inputs is arbitrary, this covers the state after every
intermediate `processVolumeAdaptively` call and after every
calibration completion. -/
theorem claim_C2_gain_clamped (t0 : ℚ) (inputs : List TickInput) :
    GainInv (runMicTicks (startCalibration initialState t0) inputs) ∧
      GainInv (runMicTicks initialState inputs) := by
  constructor
  · exact gainInv_runMicTicks _ _ (by constructor <;> norm_num [startCalibration, initialState])
  · exact gainInv_runMicTicks _ _ (by constructor <;> norm_num [initialState])

lemma fadeStep_decrease (prevLevel currLevel fm : ℚ) (h0 : 0 ≤ fm) (h1 : fm ≤ 1)
    (hlt : currLevel < prevLevel) : fadeStep prevLevel currLevel fm = fm * 0.96 := by
  unfold fadeStep clamp
  rw [if_pos hlt, max_eq_left (by nlinarith), min_eq_left (by nlinarith)]

lemma fadeStep_increase (prevLevel currLevel fm : ℚ) (h0 : 0 ≤ fm) (h1 : fm ≤ 1)
    (hge : ¬ currLevel < prevLevel) : fadeStep prevLevel currLevel fm = fm + (1 - fm) * 0.15 := by
  unfold fadeStep clamp
  rw [if_neg hge, max_eq_left (by nlinarith), min_eq_left (by nlinarith)]

lemma fadeRun_decreasing (vols : List ℚ) (fm prevLevel : ℚ) (h0 : 0 ≤ fm) (h1 : fm ≤ 1)
    (hchain : List.Chain' (· > ·) (prevLevel :: vols)) : fadeRun fm prevLevel vols ≤ fm := by
  induction vols generalizing fm prevLevel with
  | nil => exact le_refl fm
  | cons v vs ih =>
    obtain ⟨hv, hchain2⟩ := List.chain'_cons.mp hchain
    rw [fadeRun, fadeStep_decrease _ _ _ h0 h1 hv]
    have step1 : fadeRun (fm * 0.96) v vs ≤ fm * 0.96 :=
      ih (fm * 0.96) v (by nlinarith) (by nlinarith) hchain2
    nlinarith

lemma fadeRun_increasing (vols : List ℚ) (fm prevLevel : ℚ) (h0 : 0 ≤ fm) (h1 : fm ≤ 1)
    (hchain : List.Chain' (· < ·) (prevLevel :: vols)) :
    fm ≤ fadeRun fm prevLevel vols ∧ fadeRun fm prevLevel vols ≤ 1 := by
  induction vols generalizing fm prevLevel with
  | nil => exact ⟨le_refl fm, h1⟩
  | cons v vs ih =>
    obtain ⟨hv, hchain2⟩ := List.chain'_cons.mp hchain
    rw [fadeRun, fadeStep_increase _ _ _ h0 h1 (not_lt.mpr (le_of_lt hv))]
    have step1 := ih (fm + (1 - fm) * 0.15) v (by nlinarith) (by nlinarith) hchain2
    exact ⟨by nlinarith [step1.1], step1.2⟩

/-- Claim C9: starting from any fade multiplier in `[0, 1]` (the
program starts it at 1 and re-clamps it there every tick), across a
run of ticks on which the smoothed volume strictly decreases the fade
multiplier never increases, and across a run on which the smoothed
volume strictly increases the fade multiplier moves toward 1 from
below and never exceeds 1. Applying the statement to an arbitrary
sub-run of a longer run gives the tick-to-tick version. -/
theorem claim_C9_fade_monotone (fm prevLevel : ℚ) (vols : List ℚ)
    (h0 : 0 ≤ fm) (h1 : fm ≤ 1) :
    (List.Chain' (· > ·) (prevLevel :: vols) → fadeRun fm prevLevel vols ≤ fm) ∧
      (List.Chain' (· < ·) (prevLevel :: vols) →
        fm ≤ fadeRun fm prevLevel vols ∧ fadeRun fm prevLevel vols ≤ 1) :=
  ⟨fun hc => fadeRun_decreasing vols fm prevLevel h0 h1 hc,
   fun hc => fadeRun_increasing vols fm prevLevel h0 h1 hc⟩

/-- Witness for claim C9 on a concrete decreasing run and a concrete
increasing run. -/
theorem claim_C9_witness :
    (0 : ℚ) ≤ 1/2 ∧ (1/2 : ℚ) ≤ 1 ∧
      fadeRun (1/2) 1 [2/5, 3/10] ≤ 1/2 ∧
      (1/2 ≤ fadeRun (1/2) (1/4) [2/5, 1/2] ∧ fadeRun (1/2) (1/4) [2/5, 1/2] ≤ 1) :=
  ⟨by norm_num, by norm_num,
   (claim_C9_fade_monotone (1/2) 1 [2/5, 3/10] (by norm_num) (by norm_num)).1
     (by norm_num [List.chain'_cons]),
   (claim_C9_fade_monotone (1/2) (1/4) [2/5, 1/2] (by norm_num) (by norm_num)).2
     (by norm_num [List.chain'_cons])⟩

lemma processVolumeAdaptively_history (s : AudioState) (rawVolume : ℚ) :
    (processVolumeAdaptively s rawVolume).1.volumeHistory =
      if VOLUME_HISTORY_SIZE < (s.volumeHistory ++ [rawVolume]).length
        then (s.volumeHistory ++ [rawVolume]).tail
        else s.volumeHistory ++ [rawVolume] := rfl

/-- Claim C6, amended: the element stored in the volume history by each
`processVolumeAdaptively` call is the raw volume exactly as passed in
(before baseline subtraction), and the history length never exceeds
100. -/
theorem claim_C6_amended (s : AudioState) (rawVolume : ℚ)
    (h : s.volumeHistory.length ≤ 100) :
    (processVolumeAdaptively s rawVolume).1.volumeHistory.length ≤ 100 ∧
      (processVolumeAdaptively s rawVolume).1.volumeHistory.getLast? = some rawVolume := by
  rw [processVolumeAdaptively_history]
  by_cases hlen : VOLUME_HISTORY_SIZE < (s.volumeHistory ++ [rawVolume]).length
  · rw [if_pos hlen]
    have hne : s.volumeHistory ≠ [] := by
      intro hnil
      rw [hnil] at hlen
      simp [VOLUME_HISTORY_SIZE] at hlen
    constructor
    · simp only [List.length_tail, List.length_append, List.length_singleton]
      omega
    · rw [List.tail_append_of_ne_nil hne]
      exact List.getLast?_concat _
  · rw [if_neg hlen]
    refine ⟨?_, List.getLast?_concat _⟩
    simp only [VOLUME_HISTORY_SIZE, not_lt] at hlen
    exact hlen

/-- Witness for the amended claim C6 at the default state. -/
theorem claim_C6_witness :
    initialState.volumeHistory.length ≤ 100 ∧
      (processVolumeAdaptively initialState 0.5).1.volumeHistory.length ≤ 100 ∧
      (processVolumeAdaptively initialState 0.5).1.volumeHistory.getLast? = some 0.5 :=
  ⟨by norm_num [initialState],
   (claim_C6_amended initialState 0.5 (by norm_num [initialState])).1,
   (claim_C6_amended initialState 0.5 (by norm_num [initialState])).2⟩

/-- Counterexample to claim C6 as stated: with the default baseline
0.02 and raw volume 0.5, the element stored in the history is 0.5, the
raw volume itself, which differs from the post-baseline volume
`max 0 (0.5 - 0.02) = 0.48`. -/
theorem claim_C6_counterexample :
    (processVolumeAdaptively initialState 0.5).1.volumeHistory.getLast? = some 0.5 ∧
      (0.5 : ℚ) ≠ max 0 (0.5 - initialState.baselineNoise) := by
  constructor
  · rw [processVolumeAdaptively_history]
    norm_num [initialState, VOLUME_HISTORY_SIZE]
  · rw [show max (0:ℚ) (0.5 - initialState.baselineNoise) = 0.48 by
      norm_num [initialState, max_eq_right]]
    norm_num

end VoiceOrbSpec

namespace VoiceOrbSpec

lemma getD_replicate_of_lt {α : Type _} {n m : ℕ} (a d : α) (h : m < n) :
    (List.replicate n a).getD m d = a := by
  rw [List.getD_eq_getElem?_getD, List.getElem?_replicate, if_pos h]
  rfl

lemma sorted_replicate (n : ℕ) (a : ℚ) : List.Sorted (· ≤ ·) (List.replicate n a) :=
  List.pairwise_replicate.mpr (Or.inr le_rfl)

lemma sorted_replicate_append {m n : ℕ} {a b : ℚ} (hab : a ≤ b) :
    List.Sorted (· ≤ ·) (List.replicate m a ++ List.replicate n b) := by
  rw [List.Sorted, List.pairwise_append]
  refine ⟨sorted_replicate m a, sorted_replicate n b, ?_⟩
  intro x hx y hy
  rw [List.eq_of_mem_replicate hx, List.eq_of_mem_replicate hy]
  exact hab

lemma calibReplicate_eval (v : ℚ) (k : ℕ) :
    (processCalibration (calibReplicateState v k) v 1000).1.baselineNoise = max 0.01 v ∧
      (processCalibration (calibReplicateState v k) v 1000).1.adaptiveGain = 2.0 ∧
      (processCalibration (calibReplicateState v k) v 1000).2 = true := by
  have hrep : List.replicate k v ++ [v] = List.replicate (k+1) v :=
    (List.replicate_succ' k v).symm
  have hidx1 : (k+1)/2 < k+1 := Nat.div_lt_self (Nat.succ_pos k) one_lt_two
  have hidx2 : 9*(k+1)/10 < k+1 := by
    rw [Nat.div_lt_iff_lt_mul (by norm_num)]
    omega
  have hrange : ¬ ((0.05:ℚ) < v - max 0.01 v) := by
    have := le_max_right (0.01:ℚ) v
    intro hcon
    nlinarith
  simp only [processCalibration, calibReplicateState, initialState]
  rw [hrep, List.mergeSort_eq_self (sorted_replicate (k+1) v), List.length_replicate,
    getD_replicate_of_lt v 0 hidx1, getD_replicate_of_lt v 0 hidx2,
    if_pos (show CALIBRATION_DURATION ≤ (1000:ℚ) - 0 by norm_num [CALIBRATION_DURATION]),
    if_neg hrange]
  refine ⟨rfl, ?_, rfl⟩
  norm_num

/-- Claim C4, amended: calibration completed on identical samples of
value `v` in `[0, 1]` yields `baselineNoise = max 0.01 v` — equal to
`v` exactly when `v ≥ 0.01`, and equal to the floor 0.01 below that —
and gain 2.0 through the `noiseRange ≤ 0.05` branch. -/
theorem claim_C4_amended (v : ℚ) (k : ℕ) (h0 : 0 ≤ v) (h1 : v ≤ 1) :
    (processCalibration (calibReplicateState v k) v 1000).2 = true ∧
      (processCalibration (calibReplicateState v k) v 1000).1.baselineNoise = max 0.01 v ∧
      (processCalibration (calibReplicateState v k) v 1000).1.adaptiveGain = 2.0 :=
  ⟨(calibReplicate_eval v k).2.2, (calibReplicate_eval v k).1, (calibReplicate_eval v k).2.1⟩

/-- Witness for the amended claim C4: 1000 identical samples of 0.02
give baseline 0.02 and gain 2.0. -/
theorem claim_C4_witness :
    (0 : ℚ) ≤ 0.02 ∧ (0.02 : ℚ) ≤ 1 ∧
      (processCalibration (calibReplicateState 0.02 999) 0.02 1000).2 = true ∧
      (processCalibration (calibReplicateState 0.02 999) 0.02 1000).1.baselineNoise = 0.02 ∧
      (processCalibration (calibReplicateState 0.02 999) 0.02 1000).1.adaptiveGain = 2.0 := by
  have h := claim_C4_amended 0.02 999 (by norm_num) (by norm_num)
  refine ⟨by norm_num, by norm_num, h.1, ?_, h.2.2⟩
  rw [h.2.1]
  norm_num [max_eq_right]

/-- Counterexample to claim C4 as stated: identical samples of value
`v = 0` (which lies in `[0, 1]`) complete calibration with
`baselineNoise = 0.01 ≠ v`, because the code floors the median at
0.01. -/
theorem claim_C4_counterexample :
    (0 : ℚ) ≤ 0 ∧ (0 : ℚ) ≤ 1 ∧
      (processCalibration (calibReplicateState 0 999) 0 1000).2 = true ∧
      (processCalibration (calibReplicateState 0 999) 0 1000).1.baselineNoise ≠ 0 := by
  refine ⟨le_refl 0, by norm_num, (calibReplicate_eval 0 999).2.2, ?_⟩
  rw [(calibReplicate_eval 0 999).1]
  norm_num

lemma calibMix_eval :
    (processCalibration calibMixState 0.5 1000).1.baselineNoise = 0.02 ∧
      (processCalibration calibMixState 0.5 1000).1.adaptiveGain = 5/3 ∧
      (processCalibration calibMixState 0.5 1000).2 = true := by
  have hcal : calibMixState.isCalibrating = true := rfl
  have hsamp : calibMixState.calibrationSamples
      = List.replicate 900 (0.02:ℚ) ++ List.replicate 99 (0.5:ℚ) := rfl
  have hstart : calibMixState.calibrationStartTime = 0 := rfl
  have hsucc := List.replicate_succ' 99 (0.5:ℚ)
  simp only [Nat.reduceAdd] at hsucc
  have happ : (List.replicate 900 (0.02:ℚ) ++ List.replicate 99 (0.5:ℚ)) ++ [(0.5:ℚ)]
      = List.replicate 900 (0.02:ℚ) ++ List.replicate 100 (0.5:ℚ) := by
    rw [List.append_assoc, ← hsucc]
  have hsorted : List.Sorted (· ≤ ·)
      (List.replicate 900 (0.02:ℚ) ++ List.replicate 100 (0.5:ℚ)) :=
    sorted_replicate_append (by norm_num)
  have hlen : (List.replicate 900 (0.02:ℚ) ++ List.replicate 100 (0.5:ℚ)).length = 1000 := by
    rw [List.length_append, List.length_replicate, List.length_replicate]
  simp only [processCalibration, hcal, hsamp, hstart]
  rw [happ, List.mergeSort_eq_self hsorted, hlen,
    show (1000:ℕ)/2 = 500 from rfl, show 9*(1000:ℕ)/10 = 900 from rfl,
    List.getD_append _ _ _ 500 (by rw [List.length_replicate]; norm_num),
    getD_replicate_of_lt (0.02:ℚ) 0 (by norm_num),
    List.getD_append_right _ _ _ 900 (by rw [List.length_replicate]),
    if_pos (show CALIBRATION_DURATION ≤ (1000:ℚ) - 0 by norm_num [CALIBRATION_DURATION])]
  rw [List.length_replicate, Nat.sub_self, getD_replicate_of_lt (0.5:ℚ) 0 (by norm_num),
    max_eq_right (show (0.01:ℚ) ≤ 0.02 by norm_num),
    if_pos (show (0.05:ℚ) < 0.5 - 0.02 by norm_num)]
  refine ⟨rfl, ?_, rfl⟩
  show max 0.5 (min (0.8 / (0.5 - 0.02)) 4.0) = 5/3
  rw [show (0.8:ℚ) / (0.5 - 0.02) = 5/3 by norm_num]
  rw [min_eq_left (by norm_num), max_eq_right (by norm_num)]

/-- Counterexample to claim C3 as stated: on the sample multiset
`[0.02]*900 ++ [0.5]*100` calibration completes with adaptive gain
different from 0.5 — the raw gain `0.8 / 0.48 = 5/3` does not fall
below 0.5, so the lower clamp does not engage. -/
theorem claim_C3_counterexample :
    (processCalibration calibMixState 0.5 1000).2 = true ∧
      (processCalibration calibMixState 0.5 1000).1.adaptiveGain ≠ 0.5 := by
  refine ⟨calibMix_eval.2.2, ?_⟩
  rw [calibMix_eval.2.1]
  norm_num

/-- Claim C3, amended: calibration completed on the sample multiset
`[0.02]*900 ++ [0.5]*100` yields baseline 0.02 and gain
`0.8 / 0.48 = 5/3`; the raw gain lies strictly inside `[0.5, 4.0]`, so
neither side of the clamp engages. -/
theorem claim_C3_amended :
    (processCalibration calibMixState 0.5 1000).2 = true ∧
      (processCalibration calibMixState 0.5 1000).1.baselineNoise = 0.02 ∧
      (processCalibration calibMixState 0.5 1000).1.adaptiveGain = 5/3 ∧
      (0.5 : ℚ) < 5/3 ∧ (5/3 : ℚ) < 4.0 :=
  ⟨calibMix_eval.2.2, calibMix_eval.1, calibMix_eval.2.1, by norm_num, by norm_num⟩

lemma calibZero_eval :
    (processCalibration calibZeroState 1 1000).2 = true ∧
      (processCalibration calibZeroState 1 1000).1.baselineNoise = 0.01 ∧
      (processCalibration calibZeroState 1 1000).1.adaptiveGain = 2.0 := by
  have hcal : calibZeroState.isCalibrating = true := rfl
  have hsamp : calibZeroState.calibrationSamples = List.replicate 10 (0:ℚ) := rfl
  have hstart : calibZeroState.calibrationStartTime = 0 := rfl
  have happ : List.replicate 10 (0:ℚ) ++ [(1:ℚ)]
      = List.replicate 10 (0:ℚ) ++ List.replicate 1 (1:ℚ) := by
    rw [List.replicate_one]
  have hsorted : List.Sorted (· ≤ ·)
      (List.replicate 10 (0:ℚ) ++ List.replicate 1 (1:ℚ)) :=
    sorted_replicate_append (by norm_num)
  have hlen : (List.replicate 10 (0:ℚ) ++ List.replicate 1 (1:ℚ)).length = 11 := by
    rw [List.length_append, List.length_replicate, List.length_replicate]
  simp only [processCalibration, hcal, hsamp, hstart]
  rw [happ, List.mergeSort_eq_self hsorted, hlen,
    show (11:ℕ)/2 = 5 from rfl, show 9*(11:ℕ)/10 = 9 from rfl,
    List.getD_append _ _ _ 5 (by rw [List.length_replicate]; norm_num),
    getD_replicate_of_lt (0:ℚ) 0 (by norm_num),
    List.getD_append _ _ _ 9 (by rw [List.length_replicate]; norm_num),
    getD_replicate_of_lt (0:ℚ) 0 (by norm_num),
    if_pos (show CALIBRATION_DURATION ≤ (1000:ℚ) - 0 by norm_num [CALIBRATION_DURATION]),
    max_eq_left (show (0:ℚ) ≤ 0.01 by norm_num),
    if_neg (show ¬ ((0.05:ℚ) < 0 - 0.01) by norm_num)]
  refine ⟨rfl, rfl, ?_⟩
  show max 0.5 (min 2.0 4.0) = 2.0
  rw [min_eq_left (by norm_num), max_eq_right (by norm_num)]

/-- Counterexample to claim C5 as stated: with calibration in progress
on ten quiet samples, the tick that observes the loud sample 1 at the
end of the window completes calibration and immediately emits the
adaptively processed volume 1 — not the silence 0 the claim requires
for every tick whose sample is observed while calibration is in
progress. -/
theorem claim_C5_counterexample :
    calibZeroState.isCalibrating = true ∧
      (getVolumeMic calibZeroState 1 1000).2 = 1 := by
  refine ⟨rfl, ?_⟩
  unfold getVolumeMic
  rw [if_pos (show calibZeroState.isCalibrating = true from rfl),
    if_pos calibZero_eval.1, processVolumeAdaptively_snd,
    calibZero_eval.2.1, calibZero_eval.2.2,
    max_eq_right (show (0:ℚ) ≤ 1 - 0.01 by norm_num)]
  show min ((1 - 0.01) * 2.0) 1.0 = 1
  rw [min_eq_right (by norm_num)]
  norm_num

/-- Claim C5, amended: on every tick whose sample is observed while
calibration is in progress and which does not complete the window
(elapsed time below `CALIBRATION_DURATION`), the emitted volume is 0;
the first processed volume is emitted on the completing tick itself,
from that same raw sample. -/
theorem claim_C5_amended (s : AudioState) (rawVolume now : ℚ)
    (hc : s.isCalibrating = true)
    (hdur : now - s.calibrationStartTime < CALIBRATION_DURATION) :
    (getVolumeMic s rawVolume now).2 = 0 := by
  have hnc : (processCalibration s rawVolume now).2 = false := by
    unfold processCalibration
    rw [if_neg (show ¬ (s.isCalibrating = false) by rw [hc]; simp)]
    simp only []
    rw [if_neg (not_le.mpr hdur)]
  unfold getVolumeMic
  rw [if_pos hc, if_neg (show ¬ ((processCalibration s rawVolume now).2 = true) by
    rw [hnc]; simp)]

/-- Witness for the amended claim C5: a tick 500 ms into a fresh
calibration window emits volume 0. -/
theorem claim_C5_witness :
    (startCalibration initialState 0).isCalibrating = true ∧
      (500 : ℚ) - (startCalibration initialState 0).calibrationStartTime < CALIBRATION_DURATION ∧
      (getVolumeMic (startCalibration initialState 0) 0.5 500).2 = 0 :=
  ⟨rfl, by norm_num [startCalibration, initialState, CALIBRATION_DURATION],
   claim_C5_amended (startCalibration initialState 0) 0.5 500 rfl
     (by norm_num [startCalibration, initialState, CALIBRATION_DURATION])⟩

end VoiceOrbSpec

namespace VoiceOrbSpec

namespace ForceSystem

lemma forceOk_step (f : Force) (v t fade : ℝ) (hf : ForceOk f) (h0 : 0 ≤ fade) (h1 : fade ≤ 1) :
    ForceOk { f with
        life := f.life - f.decay * ((if v < t then (2.5:ℝ) else 1) + (1 - fade) * 2),
        distance := min (f.distance + f.speed) f.maxDistance,
        angle := f.angle + 0.005 } := by
  obtain ⟨hs, hd0, hdm, hm, hdec, hsp, hl⟩ := hf
  refine ⟨hs, ?_, min_le_right _ _, hm, hdec, hsp, ?_⟩
  · exact le_min (by linarith) (le_of_lt hm)
  · have hbase : (1:ℝ) ≤ (if v < t then (2.5:ℝ) else 1) := by split_ifs <;> norm_num
    have hfd : (0:ℝ) ≤ (1 - fade) * 2 := by nlinarith
    nlinarith

lemma forceOk_update (v t fade r1 r2 r3 r4 : ℝ) (forces : List Force)
    (hok : ∀ f ∈ forces, ForceOk f) (h0 : 0 ≤ fade) (h1 : fade ≤ 1)
    (hr1 : 0 ≤ r1) (hr3 : 0 ≤ r3) (hr4 : 0 ≤ r4) :
    ∀ g ∈ update v t fade r1 r2 r3 r4 forces, ForceOk g := by
  intro g hg
  simp only [update] at hg
  rw [List.mem_map] at hg
  obtain ⟨f, hf, rfl⟩ := hg
  apply forceOk_step _ v t fade _ h0 h1
  by_cases hcond : t < v ∧ r1 < (v - t) * 0.5
  · rw [if_pos hcond] at hf
    rcases List.mem_append.mp hf with hmem | hnew
    · exact hok f (List.mem_filter.mp hmem).1
    · rw [List.mem_singleton] at hnew
      subst hnew
      have hvt : 0 < v - t := by linarith [hcond.1]
      exact ⟨by nlinarith, le_refl 0, by nlinarith, by nlinarith, by nlinarith, by nlinarith,
        by norm_num⟩
  · rw [if_neg hcond] at hf
    exact hok f (List.mem_filter.mp hf).1

lemma reachable_forceOk {fs : List Force} (h : Reachable fs) : ∀ f ∈ fs, ForceOk f := by
  induction h with
  | nil => intro f hf; cases hf
  | step v t fade r1 r2 r3 r4 hre h0 h1 hr1 hr1b hr2 hr2b hr3 hr3b hr4 hr4b ih =>
    exact forceOk_update v t fade r1 r2 r3 r4 _ ih h0 h1 hr1 hr3 hr4

lemma update_nil_spawn (v t fade r1 r2 r3 r4 : ℝ) (hvt : t < v) (hr1 : r1 < (v - t) * 0.5) :
    update v t fade r1 r2 r3 r4 [] =
      [{ angle := r2 * (Real.pi * 2) + 0.005,
         strength := 10 + (v - t) * 50,
         life := 1.0 - (0.008 + r3 * 0.012) * ((if v < t then (2.5:ℝ) else 1) + (1 - fade) * 2),
         decay := 0.008 + r3 * 0.012,
         speed := 0.3 + r4 * 1.0,
         distance := min (0 + (0.3 + r4 * 1.0)) (20 + (v - t) * 60),
         maxDistance := 20 + (v - t) * 60 }] := by
  simp only [update, List.filter_nil]
  rw [if_pos (show t < v ∧ r1 < (v - t) * 0.5 from ⟨hvt, hr1⟩)]
  simp only [List.nil_append, List.map_cons, List.map_nil]

lemma reachable_update_of (v t fade r1 r2 r3 r4 : ℝ) {fs : List Force}
    (h : Reachable fs)
    (h0 : 0 ≤ fade) (h1 : fade ≤ 1)
    (hr1 : 0 ≤ r1) (hr1b : r1 < 1) (hr2 : 0 ≤ r2) (hr2b : r2 < 1)
    (hr3 : 0 ≤ r3) (hr3b : r3 < 1) (hr4 : 0 ≤ r4) (hr4b : r4 < 1) :
    Reachable (update v t fade r1 r2 r3 r4 fs) :=
  Reachable.step v t fade r1 r2 r3 r4 h h0 h1 hr1 hr1b hr2 hr2b hr3 hr3b hr4 hr4b

end ForceSystem

lemma reachable_spawnTick {fs : List Force} (h : ForceSystem.Reachable fs) :
    ForceSystem.Reachable (spawnTick fs) := by
  unfold spawnTick
  exact ForceSystem.reachable_update_of _ _ _ _ _ _ _ h (by norm_num) (by norm_num)
    (by norm_num) (by norm_num) (by norm_num) (by norm_num) (by norm_num) (by norm_num)
    (by norm_num) (by norm_num)

lemma reachable_decayTick {fs : List Force} (h : ForceSystem.Reachable fs) :
    ForceSystem.Reachable (decayTick fs) := by
  unfold decayTick
  exact ForceSystem.reachable_update_of _ _ _ _ _ _ _ h (by norm_num) (by norm_num)
    (by norm_num) (by norm_num) (by norm_num) (by norm_num) (by norm_num) (by norm_num)
    (by norm_num) (by norm_num)

lemma reachable_decayTick_iter (n : ℕ) {fs : List Force} (h : ForceSystem.Reachable fs) :
    ForceSystem.Reachable (decayTick^[n] fs) := by
  induction n with
  | zero => exact h
  | succ n ih =>
    rw [Function.iterate_succ_apply']
    exact reachable_decayTick ih

lemma spawnTick_nil :
    spawnTick [] = [{ angle := 0.5 * (Real.pi * 2) + 0.005, strength := 60, life := 0.946,
                      decay := 0.018, speed := 0.8, distance := 0.8, maxDistance := 80 }] := by
  unfold spawnTick
  rw [ForceSystem.update_nil_spawn 1 0 0 0.25 0.5 (5/6) 0.5 (by norm_num) (by norm_num)]
  have e1 : (10:ℝ) + (1 - 0) * 50 = 60 := by norm_num
  have e2 : (0.008:ℝ) + (5/6) * 0.012 = 0.018 := by norm_num
  have e3 : (0.3:ℝ) + 0.5 * 1.0 = 0.8 := by norm_num
  have e4 : (20:ℝ) + (1 - 0) * 60 = 80 := by norm_num
  have e5 : (if (1:ℝ) < 0 then (2.5:ℝ) else 1) = 1 := if_neg (by norm_num)
  rw [e2, e5, e1, e3, e4]
  have e6 : min ((0:ℝ) + 0.8) 80 = 0.8 := by
    rw [min_eq_left (by norm_num)]
    norm_num
  have e7 : (1.0:ℝ) - 0.018 * (1 + (1 - 0) * 2) = 0.946 := by norm_num
  rw [e6, e7]

lemma decayTick_single (f : Force) (h : 0 < f.life) :
    decayTick [f] = [{ f with
        life := f.life - f.decay * 4.5,
        distance := min (f.distance + f.speed) f.maxDistance,
        angle := f.angle + 0.005 }] := by
  unfold decayTick
  simp only [ForceSystem.update]
  rw [List.filter_cons_of_pos (by simpa using h), List.filter_nil,
    if_neg (show ¬ ((1:ℝ) < 0 ∧ (0.5:ℝ) < ((0:ℝ) - 1) * 0.5) from fun hcon => by
      linarith [hcon.1])]
  have e5 : (if (0:ℝ) < 1 then (2.5:ℝ) else 1) = 2.5 := if_pos (by norm_num)
  simp only [List.map_cons, List.map_nil, e5]
  rw [show (2.5:ℝ) + (1 - 0) * 2 = 4.5 by norm_num]

lemma decayTick_iter_single (n : ℕ) (f : Force)
    (h : ∀ k : ℕ, k < n → 0 < f.life - f.decay * 4.5 * k) :
    ∃ g : Force, decayTick^[n] [f] = [g] ∧
      g.life = f.life - f.decay * 4.5 * n ∧ g.decay = f.decay := by
  induction n with
  | zero => exact ⟨f, rfl, by norm_num, rfl⟩
  | succ n ih =>
    obtain ⟨g, hg, hlife, hdecay⟩ := ih (fun k hk => h k (Nat.lt_succ_of_lt hk))
    have hpos : 0 < g.life := by
      rw [hlife]
      exact h n (Nat.lt_succ_self n)
    refine ⟨{ g with
        life := g.life - g.decay * 4.5,
        distance := min (g.distance + g.speed) g.maxDistance,
        angle := g.angle + 0.005 }, ?_, ?_, hdecay⟩
    · rw [Function.iterate_succ_apply', hg, decayTick_single g hpos]
    · show g.life - g.decay * 4.5 = f.life - f.decay * 4.5 * (n + 1 : ℕ)
      rw [hlife, hdecay]
      push_cast
      ring

end VoiceOrbSpec

namespace VoiceOrbSpec

/-- Claim C8, amended: after any sequence of `update` calls from the
empty collection (with fade multiplier in `[0,1]` and random draws in
`[0,1)`), every retained force satisfies `life ≤ 1`. The lower bound
`0 ≤ life` of the claim fails: the decay step at the end of `update`
can push a positive life below 0, and such a force is only removed at
the start of the next `update`. -/
theorem claim_C8_amended (fs : List Force) (hre : ForceSystem.Reachable fs) :
    ∀ f ∈ fs, f.life ≤ 1 :=
  fun f hf => (ForceSystem.reachable_forceOk hre f hf).2.2.2.2.2.2

/-- Witness for the amended claim C8 on the reachable one-force
collection produced by a single spawning update, whose force has life
0.946. -/
theorem claim_C8_witness :
    ForceSystem.Reachable (spawnTick []) ∧
      (Force.mk (0.5 * (Real.pi * 2) + 0.005) 60 0.946 0.018 0.8 0.8 80).life ≤ 1 := by
  have hre : ForceSystem.Reachable (spawnTick []) :=
    reachable_spawnTick ForceSystem.Reachable.nil
  refine ⟨hre, ?_⟩
  exact claim_C8_amended (spawnTick []) hre _ (by
    rw [spawnTick_nil]
    exact List.mem_singleton.mpr rfl)

/-- Counterexample to claim C8 as stated: one spawning update (strength
60, decay 0.018) followed by twelve quiet updates (each subtracting
`0.018 * 4.5 = 0.081` from the life) produces a reachable state - the
result of an `update` call - whose retained force has life
`0.946 - 12 * 0.081 = -0.026 < 0`. -/
theorem claim_C8_counterexample :
    ForceSystem.Reachable (decayTick^[12] (spawnTick [])) ∧
      ∃ f ∈ decayTick^[12] (spawnTick []), f.life < 0 := by
  constructor
  · exact reachable_decayTick_iter 12 (reachable_spawnTick ForceSystem.Reachable.nil)
  · rw [spawnTick_nil]
    have hcond : ∀ k : ℕ, k < 12 → 0 < (0.946:ℝ) - 0.018 * 4.5 * k := by
      intro k hk
      have hk11 : (k:ℝ) ≤ 11 := by exact_mod_cast Nat.lt_succ_iff.mp hk
      nlinarith
    obtain ⟨g, hg, hlife, hdecay⟩ :=
      decayTick_iter_single 12 ⟨0.5 * (Real.pi * 2) + 0.005, 60, 0.946, 0.018, 0.8, 0.8, 80⟩ hcond
    rw [hg]
    refine ⟨g, List.mem_singleton.mpr rfl, ?_⟩
    rw [hlife]
    norm_num

/-- Claim C10: at every queried angle, if every force in a reachable
collection has nonnegative life, the summed influence is nonnegative -
the angular falloff is floored at 0, the travel distance is kept in
`[0, maxDistance]` with `maxDistance > 0` so the sine distance term is
nonnegative, and the strength is nonnegative, so impulses only push
the silhouette outward. -/
theorem claim_C10_influence_nonneg (fs : List Force) (angle : ℝ)
    (hre : ForceSystem.Reachable fs) (hl : ∀ f ∈ fs, 0 ≤ f.life) :
    0 ≤ ForceSystem.getInfluenceAt fs angle := by
  unfold ForceSystem.getInfluenceAt
  apply List.sum_nonneg
  intro x hx
  rw [List.mem_map] at hx
  obtain ⟨f, hf, rfl⟩ := hx
  obtain ⟨hs, hd0, hdm, hm, -, -, -⟩ := ForceSystem.reachable_forceOk hre f hf
  simp only [ForceSystem.influenceTerm]
  refine mul_nonneg (mul_nonneg (mul_nonneg hs (hl f hf)) (le_max_left 0 _)) ?_
  apply Real.sin_nonneg_of_nonneg_of_le_pi
  · exact mul_nonneg (div_nonneg hd0 (le_of_lt hm)) Real.pi_pos.le
  · calc f.distance / f.maxDistance * Real.pi
        ≤ 1 * Real.pi :=
          mul_le_mul_of_nonneg_right ((div_le_one hm).mpr hdm) Real.pi_pos.le
    _ = Real.pi := one_mul _

/-- Witness for claim C10 on the reachable one-force collection
produced by a single spawning update, whose force has life 0.946. -/
theorem claim_C10_witness :
    ForceSystem.Reachable (spawnTick []) ∧ (∀ f ∈ spawnTick [], 0 ≤ f.life) ∧
      0 ≤ ForceSystem.getInfluenceAt (spawnTick []) 0 := by
  have hre : ForceSystem.Reachable (spawnTick []) :=
    reachable_spawnTick ForceSystem.Reachable.nil
  have hl : ∀ f ∈ spawnTick [], 0 ≤ f.life := by
    rw [spawnTick_nil]
    intro f hf
    rw [List.mem_singleton] at hf
    subst hf
    norm_num
  exact ⟨hre, hl, claim_C10_influence_nonneg (spawnTick []) 0 hre hl⟩

end VoiceOrbSpec

namespace VoiceOrbSpec

lemma wrapTick_nil :
    wrapTick [] = [{ angle := 0.9999 * (Real.pi * 2) + 0.005, strength := 60, life := 0.986,
                     decay := 0.014, speed := 0.8, distance := 0.8, maxDistance := 80 }] := by
  unfold wrapTick
  rw [ForceSystem.update_nil_spawn 1 0 1 0.25 0.9999 0.5 0.5 (by norm_num) (by norm_num)]
  have e1 : (10:ℝ) + (1 - 0) * 50 = 60 := by norm_num
  have e2 : (0.008:ℝ) + 0.5 * 0.012 = 0.014 := by norm_num
  have e3 : (0.3:ℝ) + 0.5 * 1.0 = 0.8 := by norm_num
  have e4 : (20:ℝ) + (1 - 0) * 60 = 80 := by norm_num
  have e5 : (if (1:ℝ) < 0 then (2.5:ℝ) else 1) = 1 := if_neg (by norm_num)
  rw [e2, e5, e1, e3, e4]
  have e6 : min ((0:ℝ) + 0.8) 80 = 0.8 := by
    rw [min_eq_left (by norm_num)]
    norm_num
  have e7 : (1.0:ℝ) - 0.014 * (1 + (1 - 1) * 2) = 0.986 := by norm_num
  rw [e6, e7]

lemma influenceTerm_wrap (f : Force) (h0 : 0 ≤ f.angle) (h2 : f.angle ≤ Real.pi * 2) :
    ForceSystem.influenceTerm 0 f = ForceSystem.influenceTerm (2 * Real.pi) f := by
  have hkey :
      (if Real.pi < |(0:ℝ) - f.angle| then Real.pi * 2 - |(0:ℝ) - f.angle|
        else |(0:ℝ) - f.angle|)
      = (if Real.pi < |2 * Real.pi - f.angle| then Real.pi * 2 - |2 * Real.pi - f.angle|
        else |2 * Real.pi - f.angle|) := by
    have ha1 : |(0:ℝ) - f.angle| = f.angle := by
      rw [zero_sub, abs_neg, abs_of_nonneg h0]
    have ha2 : |2 * Real.pi - f.angle| = 2 * Real.pi - f.angle := abs_of_nonneg (by linarith)
    rw [ha1, ha2]
    split_ifs with hb1 hb2 hb2
    · linarith
    · ring
    · ring
    · linarith
  simp only [ForceSystem.influenceTerm]
  rw [hkey]

lemma getInfluenceAt_nil (angle : ℝ) : ForceSystem.getInfluenceAt [] angle = 0 := rfl

/-- Claim C7, amended: `getInfluenceAt` returns 0 when no forces are
live, and the influence at angle 0 equals the influence at angle `2π`
for every collection in which each force angle lies in `[0, 2π]`; the
restriction is needed because the per-tick rotation can push a stored
force angle past `2π`, where the equality fails (see the
counterexample). -/
theorem claim_C7_amended (angle : ℝ) (fs : List Force)
    (h : ∀ f ∈ fs, 0 ≤ f.angle ∧ f.angle ≤ Real.pi * 2) :
    ForceSystem.getInfluenceAt [] angle = 0 ∧
      ForceSystem.getInfluenceAt fs 0 = ForceSystem.getInfluenceAt fs (2 * Real.pi) := by
  refine ⟨getInfluenceAt_nil angle, ?_⟩
  unfold ForceSystem.getInfluenceAt
  congr 1
  apply List.map_congr_left
  intro f hf
  exact influenceTerm_wrap f (h f hf).1 (h f hf).2

/-- Witness for the amended claim C7 on a one-force collection whose
force angle is 0. -/
theorem claim_C7_witness :
    (∀ f ∈ [Force.mk 0 1 1 0.01 1 1 2], 0 ≤ f.angle ∧ f.angle ≤ Real.pi * 2) ∧
      ForceSystem.getInfluenceAt [] 0 = 0 ∧
      ForceSystem.getInfluenceAt [Force.mk 0 1 1 0.01 1 1 2] 0
        = ForceSystem.getInfluenceAt [Force.mk 0 1 1 0.01 1 1 2] (2 * Real.pi) := by
  have hh : ∀ f ∈ [Force.mk 0 1 1 0.01 1 1 2], 0 ≤ f.angle ∧ f.angle ≤ Real.pi * 2 := by
    intro f hf
    rw [List.mem_singleton] at hf
    subst hf
    constructor
    · exact le_refl 0
    · show (0:ℝ) ≤ Real.pi * 2
      positivity
  exact ⟨hh, (claim_C7_amended 0 _ hh).1, (claim_C7_amended 0 _ hh).2⟩

end VoiceOrbSpec

namespace VoiceOrbSpec

/-- Counterexample to claim C7 as stated: one reachable `update` call
spawns a force at angle `0.9999 * 2π` and rotates it by 0.005, past
`2π`; at that state the influence queried at 0 differs from the
influence queried at `2π`, because the wrapped angular distance at 0
becomes negative (inflating the falloff above 1) while at `2π` it is
the small positive overshoot. -/
theorem claim_C7_counterexample :
    ForceSystem.Reachable (wrapTick []) ∧
      ForceSystem.getInfluenceAt (wrapTick []) 0 ≠
        ForceSystem.getInfluenceAt (wrapTick []) (2 * Real.pi) := by
  constructor
  · unfold wrapTick
    exact ForceSystem.reachable_update_of _ _ _ _ _ _ _ ForceSystem.Reachable.nil
      (by norm_num) (by norm_num) (by norm_num) (by norm_num) (by norm_num) (by norm_num)
      (by norm_num) (by norm_num) (by norm_num) (by norm_num)
  · rw [wrapTick_nil]
    unfold ForceSystem.getInfluenceAt
    simp only [List.map_cons, List.map_nil, List.sum_cons, List.sum_nil, add_zero]
    simp only [ForceSystem.influenceTerm]
    set A : ℝ := 0.9999 * (Real.pi * 2) + 0.005 with hAdef
    have hpi3 : (3:ℝ) < Real.pi := Real.pi_gt_three
    have hpi315 : Real.pi < 3.15 := Real.pi_lt_d2
    have hA0 : (0:ℝ) ≤ A := by
      rw [hAdef]
      positivity
    have habs0 : |(0:ℝ) - A| = A := by
      rw [zero_sub, abs_neg, abs_of_nonneg hA0]
    have hAgtpi : Real.pi < A := by
      rw [hAdef]
      nlinarith [Real.pi_pos]
    have hA2pi : 2 * Real.pi < A := by
      rw [hAdef]
      nlinarith
    have habs2 : |2 * Real.pi - A| = A - 2 * Real.pi := by
      rw [abs_of_nonpos (by linarith), neg_sub]
    have hlt : A - 2 * Real.pi < Real.pi := by
      rw [hAdef]
      nlinarith
    rw [habs0, habs2, if_pos hAgtpi, if_neg (not_lt.mpr (le_of_lt hlt))]
    have hS : 0 < Real.sin (0.8 / 80 * Real.pi) := by
      apply Real.sin_pos_of_pos_of_lt_pi
      · positivity
      · nlinarith [Real.pi_pos]
    have hneg : (Real.pi * 2 - A) / (Real.pi * 0.4) < 0 :=
      div_neg_of_neg_of_pos (by linarith) (by positivity)
    have hpos : 0 ≤ (A - 2 * Real.pi) / (Real.pi * 0.4) :=
      div_nonneg (by linarith) (by positivity)
    have hm1 : max 0 (1 - (Real.pi * 2 - A) / (Real.pi * 0.4))
        = 1 - (Real.pi * 2 - A) / (Real.pi * 0.4) := max_eq_right (by linarith)
    have hm2 : max 0 (1 - (A - 2 * Real.pi) / (Real.pi * 0.4)) ≤ 1 :=
      max_le (by norm_num) (by linarith)
    rw [hm1]
    apply ne_of_gt
    have hgt : 1 < 1 - (Real.pi * 2 - A) / (Real.pi * 0.4) := by linarith
    have hd : 0 < (1 - (Real.pi * 2 - A) / (Real.pi * 0.4))
        - max 0 (1 - (A - 2 * Real.pi) / (Real.pi * 0.4)) := by linarith
    nlinarith [mul_pos hd hS]

end VoiceOrbSpec
